import Mathlib

/-!
Shallow embedding of the actix-cors CORS middleware
(`src/actix-cors/src/middleware.rs`) together with the parts of the policy
object (`Inner`) that the middleware calls into.  The middleware source is
embedded directly; the `Inner` validation helpers and the header-value codec
are declared in other files of the crate that are not part of the provided
sources, so they are modelled from the specification (each such definition
says so in its doc comment).

Header names are represented as lowercase strings (actix normalises header
names to lowercase); header maps are association lists where insertion
replaces any previous entry with the same name, mirroring
`HeaderMap::insert`.
-/

namespace Cors

/-- A header map: association list from (lowercase) header names to values. -/
abbrev HeaderMap := List (String × String)

/-- Lookup of the value stored for header name `n` (mirrors `HeaderMap::get`). -/
def hmGet (hs : HeaderMap) (n : String) : Option String :=
  (hs.find? (fun p => p.1 == n)).map (fun p => p.2)

/-- Insertion that replaces any existing entry for `n`
(mirrors `HeaderMap::insert` / `HttpResponseBuilder::insert_header`). -/
def hmInsert (hs : HeaderMap) (n v : String) : HeaderMap :=
  hs.filter (fun p => p.1 != n) ++ [(n, v)]

/-- The typed rejections of the policy evaluator. -/
inductive CorsError where
  | originNotAllowed
  | methodNotAllowed
  | headerNotAllowed
deriving DecidableEq, Repr

/-- Read-only view of an incoming request head: its method token and headers. -/
structure RequestHead where
  method : String
  headers : HeaderMap
deriving Repr

/-- Modelled from the spec: `OriginPolicy` — tagged variant
`AllowAll | AllowList(set of exact origin strings) | AllowByPredicate(fn)`;
the defining file of the crate is not among the provided sources. -/
inductive OriginPolicy where
  | allowAll
  | allowList (origins : List String)
  | allowByPredicate (f : String → RequestHead → Bool)

/-- `AllOrSome`, the allowance policy reused for methods / headers / exposed
headers: allow everything, or allow a closed list. -/
inductive AllOrSome (α : Type) where
  | all
  | some (value : α)

/-- Modelled from the spec: the immutable `Inner` policy aggregate
(`CorsPolicy` in the spec) whose defining file is not among the provided
sources.  Field names follow the fields the middleware source reads. -/
structure Inner where
  allowed_origins : OriginPolicy
  allowed_methods : List String
  allowed_headers : AllOrSome (List String)
  expose_headers : AllOrSome (List String)
  allowed_methods_baked : Option String
  allowed_headers_baked : Option String
  expose_headers_baked : Option String
  max_age : Option Nat
  preflight : Bool
  supports_credentials : Bool
  vary_header : Bool

/-- Modelled from the spec: `validate_origin` — with no `Origin` header the
request is allowed; otherwise `AllowAll` always allows, `AllowList` requires
exact (case-sensitive) membership, `AllowByPredicate` consults the predicate;
failure is `OriginNotAllowed`. -/
def validate_origin (inner : Inner) (req : RequestHead) : Except CorsError Unit :=
  match hmGet req.headers "origin" with
  | Option.none => Except.ok ()
  | Option.some origin =>
    match inner.allowed_origins with
    | OriginPolicy.allowAll => Except.ok ()
    | OriginPolicy.allowList origins =>
        if origins.contains origin then Except.ok ()
        else Except.error CorsError.originNotAllowed
    | OriginPolicy.allowByPredicate f =>
        if f origin req then Except.ok ()
        else Except.error CorsError.originNotAllowed

/-- Modelled from the spec: `validate_allowed_method` — reads
`Access-Control-Request-Method`; absence on a preflight request is rejected,
presence requires case-sensitive membership in the allowed-method set. -/
def validate_allowed_method (inner : Inner) (req : RequestHead) : Except CorsError Unit :=
  match hmGet req.headers "access-control-request-method" with
  | Option.none => Except.error CorsError.methodNotAllowed
  | Option.some m =>
      if inner.allowed_methods.contains m then Except.ok ()
      else Except.error CorsError.methodNotAllowed

/-- Requested-header tokens: comma-separated, trimmed, compared
case-insensitively (lowercased; the allow-list is stored lowercase). -/
def splitRequestHeaders (v : String) : List String :=
  (v.splitOn ",").map (fun t => t.trim.toLower)

/-- Modelled from the spec: `validate_allowed_headers` — `AllowAll` always
allows; otherwise every requested token must be in the allow-list, failing
with `HeaderNotAllowed`; a missing request-headers header requests nothing. -/
def validate_allowed_headers (inner : Inner) (req : RequestHead) : Except CorsError Unit :=
  match inner.allowed_headers with
  | AllOrSome.all => Except.ok ()
  | AllOrSome.some allowed =>
    match hmGet req.headers "access-control-request-headers" with
    | Option.none => Except.ok ()
    | Option.some v =>
        if (splitRequestHeaders v).all (fun t => allowed.contains t) then Except.ok ()
        else Except.error CorsError.headerNotAllowed

/-- Modelled from the spec: the origin-resolution rule
(`Inner::access_control_allow_origin`) — `AllowAll` yields the literal `*`
unless credentials are supported, in which case (as for list/predicate
policies) the request's exact `Origin` value is echoed. -/
def access_control_allow_origin (inner : Inner) (req : RequestHead) : Option String :=
  match inner.allowed_origins with
  | OriginPolicy.allowAll =>
      if inner.supports_credentials then hmGet req.headers "origin"
      else Option.some "*"
  | _ => hmGet req.headers "origin"

/-- Insertion sort helper for the header-value codec. -/
def insertSorted (x : String) : List String → List String
  | [] => [x]
  | y :: ys => if x ≤ y then x :: y :: ys else y :: insertSorted x ys

/-- Lexicographic sort of token lists. -/
def sortTokens : List String → List String
  | [] => []
  | x :: xs => insertSorted x (sortTokens xs)

/-- Modelled from the spec: `intersperse_header_values` (the
`HeaderValueCodec.encode` of the spec, declared in the crate's builder file,
not among the provided sources) — joins the token set with `", "` in a
deterministic lexicographic order. -/
def intersperse_header_values (tokens : List String) : String :=
  String.intercalate ", " (sortTokens tokens.dedup)

/-- A response: status, headers, body, and the rejection it renders, if any. -/
structure HttpResponse where
  status : Nat
  headers : HeaderMap
  body : String
  error : Option CorsError
deriving Repr

/-- A response paired with the request that produced it
(mirrors `ServiceResponse`). -/
structure ServiceResponse where
  request : RequestHead
  response : HttpResponse
deriving Repr

/-- Modelled from the spec: the host's error-to-response rendering for a
rejection (`req.error_response(err)`): a 4xx response carrying the typed
rejection and none of the CORS success headers. -/
def errorResponse (req : RequestHead) (err : CorsError) : ServiceResponse :=
  { request := req
    response := { status := 400, headers := [], body := "", error := Option.some err } }

/-- The chained validation run at the top of `handle_preflight`:
`validate_origin` and-then `validate_allowed_method` and-then
`validate_allowed_headers`. -/
def corsValidate (inner : Inner) (req : RequestHead) : Except CorsError Unit :=
  (validate_origin inner req).bind (fun _ =>
    (validate_allowed_method inner req).bind (fun _ =>
      validate_allowed_headers inner req))

/-- Header mutation shared by `handle_preflight` and `augment_response`:
insert the resolved allow-origin value, when one is resolved. -/
def applyAllowOrigin (inner : Inner) (req : RequestHead) (hs : HeaderMap) : HeaderMap :=
  match access_control_allow_origin inner req with
  | Option.some origin => hmInsert hs "access-control-allow-origin" origin
  | Option.none => hs

/-- Preflight mutation: insert the baked allow-methods value, when present. -/
def applyAllowMethods (inner : Inner) (hs : HeaderMap) : HeaderMap :=
  match inner.allowed_methods_baked with
  | Option.some v => hmInsert hs "access-control-allow-methods" v
  | Option.none => hs

/-- Preflight mutation: insert the baked allow-headers value, or, when the
policy has no baked value (headers-all), echo the request's raw
`Access-Control-Request-Headers` value when that header is present. -/
def applyAllowHeaders (inner : Inner) (req : RequestHead) (hs : HeaderMap) : HeaderMap :=
  match inner.allowed_headers_baked with
  | Option.some v => hmInsert hs "access-control-allow-headers" v
  | Option.none =>
    match hmGet req.headers "access-control-request-headers" with
    | Option.some v => hmInsert hs "access-control-allow-headers" v
    | Option.none => hs

/-- Mutation shared by both responders: insert
`Access-Control-Allow-Credentials: true` when credentials are supported. -/
def applyCredentials (inner : Inner) (hs : HeaderMap) : HeaderMap :=
  if inner.supports_credentials then
    hmInsert hs "access-control-allow-credentials" "true"
  else hs

/-- Preflight mutation: insert `Access-Control-Max-Age` when configured. -/
def applyMaxAge (inner : Inner) (hs : HeaderMap) : HeaderMap :=
  match inner.max_age with
  | Option.some n => hmInsert hs "access-control-max-age" (toString n)
  | Option.none => hs

/-- `CorsMiddleware::handle_preflight` from `middleware.rs`: validate, and on
rejection return the host's error response; on success synthesize a `200`
response with no body, applying the header insertions in source order. -/
def handle_preflight (inner : Inner) (req : RequestHead) : ServiceResponse :=
  match corsValidate inner req with
  | Except.error err => errorResponse req err
  | Except.ok _ =>
    { request := req
      response :=
        { status := 200
          headers :=
            applyMaxAge inner (applyCredentials inner
              (applyAllowHeaders inner req
                (applyAllowMethods inner (applyAllowOrigin inner req []))))
          body := ""
          error := Option.none } }

/-- Validity of a header value, byte-wise as in `http::HeaderValue`: every
byte is visible (≥ 32 and ≠ 127) or horizontal tab.  Characters above U+00FF
encode to bytes ≥ 128, hence are treated as valid. -/
def validHeaderValueChar (c : Char) : Bool :=
  (32 ≤ c.toNat && c.toNat != 127) || c.toNat == 9

/-- A string is a valid header value when all its characters are. -/
def validHeaderValue (s : String) : Bool :=
  s.data.all validHeaderValueChar

/-- The fallible `Vec<u8> → HeaderValue` conversion (`val.try_into()`). -/
def tryIntoHeaderValue (s : String) : Option String :=
  if validHeaderValue s then Option.some s else Option.none

/-- The `Vary` accumulation of `augment_response`: existing value plus
`", Origin"`, converted back through the fallible conversion whose `unwrap`
the source performs. -/
def appendOriginToVary (v : String) : Option String :=
  tryIntoHeaderValue (v ++ ", Origin")

/-- Augmentation mutation: the expose-headers insertion — the baked value
when present, or, when the policy is expose-all and the *request's* header
map is non-empty (as the source checks), the encoded set of the *request's*
header names (as the source computes). -/
def applyExposeHeaders (inner : Inner) (req : RequestHead) (hs : HeaderMap) : HeaderMap :=
  match inner.expose_headers_baked with
  | Option.some v => hmInsert hs "access-control-expose-headers" v
  | Option.none =>
    match inner.expose_headers with
    | AllOrSome.all =>
      if req.headers.isEmpty then hs
      else hmInsert hs "access-control-expose-headers"
        (intersperse_header_values (req.headers.map (fun p => p.1)))
    | AllOrSome.some _ => hs

/-- Augmentation mutation: when `vary_header` is enabled, append `", Origin"`
to an existing `Vary` value (through the fallible conversion whose `unwrap`
the source performs; the source's panic on a failed conversion is modelled
with the unconverted bytes as fallback, shown unreachable for valid header
values by the no-panic theorem), or set `Vary: Origin` when absent. -/
def applyVary (inner : Inner) (hs : HeaderMap) : HeaderMap :=
  if inner.vary_header then
    match hmGet hs "vary" with
    | Option.some v => hmInsert hs "vary" ((appendOriginToVary v).getD (v ++ ", Origin"))
    | Option.none => hmInsert hs "vary" "Origin"
  else hs

/-- `CorsMiddleware::augment_response` from `middleware.rs`: starting from
the downstream response's headers, insert the resolved allow-origin, the
expose-headers value, the credentials flag, and accumulate `Origin` into
`Vary`, in source order. -/
def augment_response (inner : Inner) (res : ServiceResponse) : ServiceResponse :=
  { res with
    response :=
      { res.response with
        headers :=
          applyVary inner (applyCredentials inner
            (applyExposeHeaders inner res.request
              (applyAllowOrigin inner res.request res.response.headers))) } }

/-- The three terminal shapes of `Service::call` for `CorsMiddleware`,
following the spec's per-request state machine: preflight short-circuit,
origin-rejection short-circuit, or forwarding to the downstream service. -/
inductive CallOutcome where
  | preflightShortCircuit (res : ServiceResponse)
  | rejectedShortCircuit (res : ServiceResponse)
  | forwarded (res : ServiceResponse)
deriving Repr

/-- The downstream service runs exactly in the `forwarded` outcome. -/
def downstreamInvoked : CallOutcome → Bool
  | CallOutcome.forwarded _ => true
  | _ => false

/-- Whether the outcome came from the preflight branch. -/
def isPreflightOutcome : CallOutcome → Bool
  | CallOutcome.preflightShortCircuit _ => true
  | _ => false

/-- `Service::call` from `middleware.rs`: preflight handling when the policy
enables it and the method is `OPTIONS`; otherwise origin validation (only
when an `Origin` header is present) short-circuits on failure, and the
downstream response is augmented exactly when an `Origin` header was
present. -/
def call (inner : Inner) (service : RequestHead → HttpResponse) (req : RequestHead) :
    CallOutcome :=
  if inner.preflight && req.method == "OPTIONS" then
    CallOutcome.preflightShortCircuit (handle_preflight inner req)
  else
    match hmGet req.headers "origin" with
    | Option.some _ =>
      match validate_origin inner req with
      | Except.error err => CallOutcome.rejectedShortCircuit (errorResponse req err)
      | Except.ok _ =>
          CallOutcome.forwarded
            (augment_response inner { request := req, response := service req })
    | Option.none => CallOutcome.forwarded { request := req, response := service req }

/-! ## Basic lemmas about the header map -/

theorem hmGet_nil (n : String) : hmGet ([] : HeaderMap) n = Option.none := rfl

theorem hmGet_cons (p : String × String) (ps : HeaderMap) (n : String) :
    hmGet (p :: ps) n = if p.1 = n then Option.some p.2 else hmGet ps n := by
  by_cases h : p.1 = n <;> simp [hmGet, List.find?_cons, h]

theorem hmInsert_cons (p : String × String) (ps : HeaderMap) (m v : String) :
    hmInsert (p :: ps) m v =
      if p.1 = m then hmInsert ps m v else p :: hmInsert ps m v := by
  by_cases h : p.1 = m <;> simp [hmInsert, List.filter_cons, h]

/-- Lookup after insertion: the inserted name finds the new value, any other
name finds whatever was there before. -/
theorem hmGet_hmInsert (hs : HeaderMap) (n m v : String) :
    hmGet (hmInsert hs m v) n = if n = m then Option.some v else hmGet hs n := by
  induction hs with
  | nil =>
      by_cases h : n = m
      · simp [hmGet, hmInsert, List.find?, h]
      · have hmn : (m == n) = false := by
          simp only [beq_eq_false_iff_ne]
          exact fun hh => h hh.symm
        simp [hmGet, hmInsert, List.find?, h, hmn]
  | cons p ps ih =>
      rw [hmInsert_cons]
      by_cases hpm : p.1 = m
      · rw [if_pos hpm, ih, hmGet_cons]
        by_cases hnm : n = m
        · simp [hnm]
        · have hpn : ¬ p.1 = n := by rw [hpm]; exact fun hh => hnm hh.symm
          simp [hnm, hpn]
      · rw [if_neg hpm, hmGet_cons, hmGet_cons]
        by_cases hpn : p.1 = n
        · have hnm : ¬ n = m := by rw [← hpn]; exact hpm
          simp [hpn, hnm]
        · simp [hpn, ih]

theorem hmGet_hmInsert_self (hs : HeaderMap) (m v : String) :
    hmGet (hmInsert hs m v) m = Option.some v := by
  simp [hmGet_hmInsert]

theorem hmGet_hmInsert_ne (hs : HeaderMap) (n m v : String) (h : n ≠ m) :
    hmGet (hmInsert hs m v) n = hmGet hs n := by
  simp [hmGet_hmInsert, h]

/-! ## Lookup lemmas for the header-mutation stages -/

theorem hmGet_applyAllowOrigin_ne (inner : Inner) (req : RequestHead) (hs : HeaderMap)
    (n : String) (h : n ≠ "access-control-allow-origin") :
    hmGet (applyAllowOrigin inner req hs) n = hmGet hs n := by
  unfold applyAllowOrigin
  cases access_control_allow_origin inner req <;> simp [hmGet_hmInsert, h]

theorem hmGet_applyAllowOrigin_self (inner : Inner) (req : RequestHead) (hs : HeaderMap) :
    hmGet (applyAllowOrigin inner req hs) "access-control-allow-origin"
      = (match access_control_allow_origin inner req with
         | Option.some o => Option.some o
         | Option.none => hmGet hs "access-control-allow-origin") := by
  unfold applyAllowOrigin
  cases access_control_allow_origin inner req <;> simp [hmGet_hmInsert]

theorem hmGet_applyAllowMethods_ne (inner : Inner) (hs : HeaderMap)
    (n : String) (h : n ≠ "access-control-allow-methods") :
    hmGet (applyAllowMethods inner hs) n = hmGet hs n := by
  unfold applyAllowMethods
  cases inner.allowed_methods_baked <;> simp [hmGet_hmInsert, h]

theorem hmGet_applyAllowMethods_self (inner : Inner) (hs : HeaderMap) :
    hmGet (applyAllowMethods inner hs) "access-control-allow-methods"
      = (match inner.allowed_methods_baked with
         | Option.some v => Option.some v
         | Option.none => hmGet hs "access-control-allow-methods") := by
  unfold applyAllowMethods
  cases inner.allowed_methods_baked <;> simp [hmGet_hmInsert]

theorem hmGet_applyAllowHeaders_ne (inner : Inner) (req : RequestHead) (hs : HeaderMap)
    (n : String) (h : n ≠ "access-control-allow-headers") :
    hmGet (applyAllowHeaders inner req hs) n = hmGet hs n := by
  unfold applyAllowHeaders
  cases inner.allowed_headers_baked
  · cases hmGet req.headers "access-control-request-headers" <;> simp [hmGet_hmInsert, h]
  · simp [hmGet_hmInsert, h]

theorem hmGet_applyAllowHeaders_self (inner : Inner) (req : RequestHead) (hs : HeaderMap) :
    hmGet (applyAllowHeaders inner req hs) "access-control-allow-headers"
      = (match inner.allowed_headers_baked with
         | Option.some v => Option.some v
         | Option.none =>
           match hmGet req.headers "access-control-request-headers" with
           | Option.some v => Option.some v
           | Option.none => hmGet hs "access-control-allow-headers") := by
  unfold applyAllowHeaders
  cases inner.allowed_headers_baked
  · cases hmGet req.headers "access-control-request-headers" <;> simp [hmGet_hmInsert]
  · simp [hmGet_hmInsert]

theorem hmGet_applyCredentials_ne (inner : Inner) (hs : HeaderMap)
    (n : String) (h : n ≠ "access-control-allow-credentials") :
    hmGet (applyCredentials inner hs) n = hmGet hs n := by
  unfold applyCredentials
  cases inner.supports_credentials <;> simp [hmGet_hmInsert, h]

theorem hmGet_applyCredentials_self (inner : Inner) (hs : HeaderMap) :
    hmGet (applyCredentials inner hs) "access-control-allow-credentials"
      = (if inner.supports_credentials then Option.some "true"
         else hmGet hs "access-control-allow-credentials") := by
  unfold applyCredentials
  cases inner.supports_credentials <;> simp [hmGet_hmInsert]

theorem hmGet_applyMaxAge_ne (inner : Inner) (hs : HeaderMap)
    (n : String) (h : n ≠ "access-control-max-age") :
    hmGet (applyMaxAge inner hs) n = hmGet hs n := by
  unfold applyMaxAge
  cases inner.max_age <;> simp [hmGet_hmInsert, h]

theorem hmGet_applyMaxAge_self (inner : Inner) (hs : HeaderMap) :
    hmGet (applyMaxAge inner hs) "access-control-max-age"
      = (match inner.max_age with
         | Option.some k => Option.some (toString k)
         | Option.none => hmGet hs "access-control-max-age") := by
  unfold applyMaxAge
  cases inner.max_age <;> simp [hmGet_hmInsert]

theorem hmGet_applyExposeHeaders_ne (inner : Inner) (req : RequestHead) (hs : HeaderMap)
    (n : String) (h : n ≠ "access-control-expose-headers") :
    hmGet (applyExposeHeaders inner req hs) n = hmGet hs n := by
  unfold applyExposeHeaders
  cases inner.expose_headers_baked
  · cases inner.expose_headers
    · by_cases he : req.headers.isEmpty <;> simp [he, hmGet_hmInsert, h]
    · simp
  · simp [hmGet_hmInsert, h]

/-- The `getD` fallback modelling the source's `unwrap` always produces the
appended value, whether or not the conversion succeeds. -/
theorem appendOriginToVary_getD (v : String) :
    (appendOriginToVary v).getD (v ++ ", Origin") = v ++ ", Origin" := by
  unfold appendOriginToVary tryIntoHeaderValue
  by_cases h : validHeaderValue (v ++ ", Origin") <;> simp [h]

theorem hmGet_applyVary_ne (inner : Inner) (hs : HeaderMap)
    (n : String) (h : n ≠ "vary") :
    hmGet (applyVary inner hs) n = hmGet hs n := by
  unfold applyVary
  cases inner.vary_header
  · simp
  · cases hmGet hs "vary" <;> simp [hmGet_hmInsert, h]

theorem hmGet_applyVary_vary (inner : Inner) (hs : HeaderMap)
    (hv : inner.vary_header = true) :
    hmGet (applyVary inner hs) "vary"
      = Option.some (match hmGet hs "vary" with
          | Option.some v => v ++ ", Origin"
          | Option.none => "Origin") := by
  unfold applyVary
  rw [hv]
  cases hmGet hs "vary" <;> simp [hmGet_hmInsert, appendOriginToVary_getD]

/-- The only rejection `validate_origin` can produce is `originNotAllowed`. -/
theorem validate_origin_error (inner : Inner) (req : RequestHead) (e : CorsError)
    (h : validate_origin inner req = Except.error e) :
    e = CorsError.originNotAllowed := by
  unfold validate_origin at h
  cases ho : hmGet req.headers "origin" with
  | none => rw [ho] at h; simp at h
  | some o =>
      rw [ho] at h
      cases hp : inner.allowed_origins with
      | allowAll => rw [hp] at h; simp at h
      | allowList origins =>
          rw [hp] at h
          by_cases hc : o ∈ origins
          · simp [hc] at h
          · simp [hc] at h
            exact h.symm
      | allowByPredicate f =>
          rw [hp] at h
          by_cases hc : f o req = true
          · simp [hc] at h
          · simp [hc] at h
            exact h.symm

theorem validHeaderValue_append (a b : String) :
    validHeaderValue (a ++ b) = (validHeaderValue a && validHeaderValue b) := by
  simp [validHeaderValue, String.data_append, List.all_append]

/-! ## Claim theorems -/

/-- C9: the `Vary` construction of `augment_response` never panics: the
fallible header-value conversion applied to an existing valid `Vary` value
with `", Origin"` appended always succeeds, yielding the appended value. -/
theorem vary_append_never_panics (v : String) (h : validHeaderValue v = true) :
    appendOriginToVary v = Option.some (v ++ ", Origin") := by
  unfold appendOriginToVary tryIntoHeaderValue
  have h2 : validHeaderValue ", Origin" = true := by decide
  rw [validHeaderValue_append, h, h2]
  simp

theorem vary_append_never_panics_witness :
    validHeaderValue "Accept" = true
    ∧ appendOriginToVary "Accept" = Option.some "Accept, Origin" :=
  ⟨by decide, vary_append_never_panics "Accept" (by decide)⟩

/-- C8: with `vary_header` enabled, the augmented response's `Vary` header is
the previous value with `", Origin"` appended when one existed, and
`"Origin"` when none existed. -/
theorem vary_accumulation (inner : Inner) (res : ServiceResponse)
    (hv : inner.vary_header = true) :
    hmGet (augment_response inner res).response.headers "vary"
      = Option.some (match hmGet res.response.headers "vary" with
          | Option.some v => v ++ ", Origin"
          | Option.none => "Origin") := by
  simp only [augment_response]
  rw [hmGet_applyVary_vary _ _ hv,
      hmGet_applyCredentials_ne _ _ _ (by decide),
      hmGet_applyExposeHeaders_ne _ _ _ _ (by decide),
      hmGet_applyAllowOrigin_ne _ _ _ _ (by decide)]

def c8Inner : Inner :=
  { allowed_origins := OriginPolicy.allowAll
    allowed_methods := ["GET"]
    allowed_headers := AllOrSome.all
    expose_headers := AllOrSome.some []
    allowed_methods_baked := Option.some "GET"
    allowed_headers_baked := Option.none
    expose_headers_baked := Option.none
    max_age := Option.none
    preflight := true
    supports_credentials := false
    vary_header := true }

def c8Res : ServiceResponse :=
  { request := { method := "GET", headers := [("origin", "http://a.com")] }
    response :=
      { status := 200, headers := [("vary", "Accept")], body := "", error := Option.none } }

theorem vary_accumulation_witness :
    hmGet (augment_response c8Inner c8Res).response.headers "vary"
      = Option.some "Accept, Origin" := by
  have h := vary_accumulation c8Inner c8Res rfl
  have h2 : hmGet c8Res.response.headers "vary" = Option.some "Accept" := rfl
  rw [h2] at h
  exact h

def c2Inner : Inner :=
  { allowed_origins := OriginPolicy.allowAll
    allowed_methods := ["GET"]
    allowed_headers := AllOrSome.all
    expose_headers := AllOrSome.all
    allowed_methods_baked := Option.some "GET"
    allowed_headers_baked := Option.none
    expose_headers_baked := Option.none
    max_age := Option.none
    preflight := true
    supports_credentials := false
    vary_header := false }

def c2Res : ServiceResponse :=
  { request := { method := "GET", headers := [("origin", "http://a.com")] }
    response :=
      { status := 200, headers := [("content-type", "text/plain")], body := ""
        error := Option.none } }

/-- C2 (counterevidence): with an expose-all policy, no baked expose value,
a request whose only header is `Origin`, and a downstream response whose only
header is `Content-Type`, `augment_response` sets
`Access-Control-Expose-Headers` to the encoding of the *request's*
header-name set (`"origin"`), not to the encoding of the response's own
header-name set (`"content-type"`). -/
theorem expose_all_uses_request_headers :
    hmGet (augment_response c2Inner c2Res).response.headers
        "access-control-expose-headers" = Option.some "origin"
    ∧ intersperse_header_values (c2Res.response.headers.map (fun p => p.1))
        = "content-type"
    ∧ (Option.some "origin" : Option String) ≠ Option.some "content-type" :=
  ⟨rfl, rfl, by decide⟩

/-- C3: the preflight path is taken if and only if the policy's preflight
flag is set and the request method is `OPTIONS`; on that path the outcome is
exactly `handle_preflight`'s response and the downstream service is never
invoked. -/
theorem preflight_path_iff (inner : Inner) (service : RequestHead → HttpResponse)
    (req : RequestHead) :
    (isPreflightOutcome (call inner service req) = true ↔
      (inner.preflight = true ∧ req.method = "OPTIONS"))
    ∧ ((inner.preflight = true ∧ req.method = "OPTIONS") →
        call inner service req
            = CallOutcome.preflightShortCircuit (handle_preflight inner req)
          ∧ downstreamInvoked (call inner service req) = false) := by
  by_cases h : (inner.preflight && req.method == "OPTIONS") = true
  · have h1 : inner.preflight = true := (Bool.and_eq_true _ _ |>.mp h).1
    have h2 : req.method = "OPTIONS" := by
      have h2b := (Bool.and_eq_true _ _ |>.mp h).2
      simpa using h2b
    refine ⟨?_, fun _ => ⟨?_, ?_⟩⟩
    · simp [call, h, isPreflightOutcome, h1, h2]
    · simp [call, h]
    · simp [call, h, downstreamInvoked]
  · have hb : (inner.preflight && req.method == "OPTIONS") = false := by
      revert h
      cases inner.preflight && req.method == "OPTIONS" <;> simp
    have hcond : ¬ (inner.preflight = true ∧ req.method = "OPTIONS") := by
      rintro ⟨h1, h2⟩
      apply h
      rw [Bool.and_eq_true]
      exact ⟨h1, by simp [h2]⟩
    refine ⟨⟨?_, fun hc => absurd hc hcond⟩, fun hc => absurd hc hcond⟩
    intro hpre
    exfalso
    cases ho : hmGet req.headers "origin" with
    | none => simp [call, hb, ho, isPreflightOutcome] at hpre
    | some o =>
        cases hv : validate_origin inner req with
        | error e => simp [call, hb, ho, hv, isPreflightOutcome] at hpre
        | ok u => simp [call, hb, ho, hv, isPreflightOutcome] at hpre

/-- A trivial downstream service used by the concrete witnesses. -/
def okService : RequestHead → HttpResponse :=
  fun _ => { status := 200, headers := [], body := "", error := Option.none }

def c3Inner : Inner :=
  { allowed_origins := OriginPolicy.allowAll
    allowed_methods := ["GET"]
    allowed_headers := AllOrSome.all
    expose_headers := AllOrSome.all
    allowed_methods_baked := Option.some "GET"
    allowed_headers_baked := Option.none
    expose_headers_baked := Option.none
    max_age := Option.none
    preflight := true
    supports_credentials := false
    vary_header := false }

def c3Req : RequestHead :=
  { method := "OPTIONS"
    headers := [("origin", "http://a.com"), ("access-control-request-method", "GET")] }

theorem preflight_path_iff_witness :
    call c3Inner okService c3Req
        = CallOutcome.preflightShortCircuit (handle_preflight c3Inner c3Req)
      ∧ downstreamInvoked (call c3Inner okService c3Req) = false :=
  (preflight_path_iff c3Inner okService c3Req).2 ⟨rfl, rfl⟩

/-- C7: a non-preflight request carrying an `Origin` header that fails
`validate_origin` is answered with the host's error response for
`OriginNotAllowed`; the downstream service is never invoked and the resulting
response carries no `Access-Control-Allow-Origin` header. -/
theorem origin_rejection_short_circuit (inner : Inner)
    (service : RequestHead → HttpResponse) (req : RequestHead) (o : String) (e : CorsError)
    (hnp : (inner.preflight && req.method == "OPTIONS") = false)
    (ho : hmGet req.headers "origin" = Option.some o)
    (hfail : validate_origin inner req = Except.error e) :
    call inner service req = CallOutcome.rejectedShortCircuit (errorResponse req e)
    ∧ downstreamInvoked (call inner service req) = false
    ∧ e = CorsError.originNotAllowed
    ∧ hmGet (errorResponse req e).response.headers "access-control-allow-origin"
        = Option.none := by
  refine ⟨?_, ?_, validate_origin_error inner req e hfail, rfl⟩
  · simp [call, hnp, ho, hfail]
  · simp [call, hnp, ho, hfail, downstreamInvoked]

def c7Inner : Inner :=
  { allowed_origins := OriginPolicy.allowList ["http://good.example"]
    allowed_methods := ["GET"]
    allowed_headers := AllOrSome.all
    expose_headers := AllOrSome.all
    allowed_methods_baked := Option.some "GET"
    allowed_headers_baked := Option.none
    expose_headers_baked := Option.none
    max_age := Option.none
    preflight := true
    supports_credentials := false
    vary_header := false }

def c7Req : RequestHead :=
  { method := "GET", headers := [("origin", "http://evil.example")] }

theorem origin_rejection_short_circuit_witness :
    call c7Inner okService c7Req
        = CallOutcome.rejectedShortCircuit (errorResponse c7Req CorsError.originNotAllowed)
      ∧ downstreamInvoked (call c7Inner okService c7Req) = false := by
  have h := origin_rejection_short_circuit c7Inner okService c7Req
    "http://evil.example" CorsError.originNotAllowed rfl rfl rfl
  exact ⟨h.1, h.2.1⟩

theorem augment_response_headers (inner : Inner) (res : ServiceResponse) :
    (augment_response inner res).response.headers
      = applyVary inner (applyCredentials inner
          (applyExposeHeaders inner res.request
            (applyAllowOrigin inner res.request res.response.headers))) := rfl

theorem handle_preflight_ok_headers (inner : Inner) (req : RequestHead)
    (hok : corsValidate inner req = Except.ok ()) :
    (handle_preflight inner req).response.headers
      = applyMaxAge inner (applyCredentials inner
          (applyAllowHeaders inner req
            (applyAllowMethods inner (applyAllowOrigin inner req [])))) := by
  unfold handle_preflight
  rw [hok]

theorem handle_preflight_ok_status (inner : Inner) (req : RequestHead)
    (hok : corsValidate inner req = Except.ok ()) :
    (handle_preflight inner req).response.status = 200 := by
  unfold handle_preflight
  rw [hok]

theorem handle_preflight_ok_body (inner : Inner) (req : RequestHead)
    (hok : corsValidate inner req = Except.ok ()) :
    (handle_preflight inner req).response.body = "" := by
  unfold handle_preflight
  rw [hok]

/-- C1: with an `AllowAll` origin policy, every response that reaches
response generation carries an `Access-Control-Allow-Origin` equal to the
literal request `Origin` value when credentials are supported (hence never
the synthesized wildcard), and equal to the literal `"*"` when credentials
are not supported: the augmented response unconditionally (augmentation only
requires the `Origin` header to be present), and the preflight response
whenever the preflight checks succeed. -/
theorem allow_all_origin_resolution (inner : Inner) (req : RequestHead)
    (res : ServiceResponse) (o : String)
    (hall : inner.allowed_origins = OriginPolicy.allowAll)
    (ho : hmGet req.headers "origin" = Option.some o)
    (hres : res.request = req) :
    (corsValidate inner req = Except.ok () →
      hmGet (handle_preflight inner req).response.headers "access-control-allow-origin"
        = if inner.supports_credentials then Option.some o else Option.some "*")
    ∧ (hmGet (augment_response inner res).response.headers "access-control-allow-origin"
        = if inner.supports_credentials then Option.some o else Option.some "*")
    ∧ (inner.supports_credentials = true → o ≠ "*" →
        (hmGet (augment_response inner res).response.headers "access-control-allow-origin"
            ≠ Option.some "*"
         ∧ (corsValidate inner req = Except.ok () →
            hmGet (handle_preflight inner req).response.headers
                "access-control-allow-origin" ≠ Option.some "*"))) := by
  have hacao : access_control_allow_origin inner req
      = (if inner.supports_credentials then Option.some o else Option.some "*") := by
    unfold access_control_allow_origin
    rw [hall]
    cases inner.supports_credentials <;> simp [ho]
  have hpf : corsValidate inner req = Except.ok () →
      hmGet (handle_preflight inner req).response.headers "access-control-allow-origin"
        = if inner.supports_credentials then Option.some o else Option.some "*" := by
    intro hok
    rw [handle_preflight_ok_headers inner req hok,
        hmGet_applyMaxAge_ne _ _ _ (by decide),
        hmGet_applyCredentials_ne _ _ _ (by decide),
        hmGet_applyAllowHeaders_ne _ _ _ _ (by decide),
        hmGet_applyAllowMethods_ne _ _ _ (by decide),
        hmGet_applyAllowOrigin_self, hacao]
    cases hc : inner.supports_credentials <;> simp
  have haug : hmGet (augment_response inner res).response.headers
      "access-control-allow-origin"
      = if inner.supports_credentials then Option.some o else Option.some "*" := by
    rw [augment_response_headers,
        hmGet_applyVary_ne _ _ _ (by decide),
        hmGet_applyCredentials_ne _ _ _ (by decide),
        hmGet_applyExposeHeaders_ne _ _ _ _ (by decide),
        hmGet_applyAllowOrigin_self, hres, hacao]
    cases hc : inner.supports_credentials <;> simp
  refine ⟨hpf, haug, ?_⟩
  intro hc hne
  constructor
  · intro heq
    rw [haug, hc] at heq
    simp at heq
    exact hne heq
  · intro hok heq
    rw [hpf hok, hc] at heq
    simp at heq
    exact hne heq

def c1Inner : Inner :=
  { allowed_origins := OriginPolicy.allowAll
    allowed_methods := ["GET"]
    allowed_headers := AllOrSome.all
    expose_headers := AllOrSome.some []
    allowed_methods_baked := Option.some "GET"
    allowed_headers_baked := Option.none
    expose_headers_baked := Option.none
    max_age := Option.none
    preflight := true
    supports_credentials := true
    vary_header := false }

def c1Req : RequestHead :=
  { method := "OPTIONS"
    headers := [("origin", "http://example.com"), ("access-control-request-method", "GET")] }

def c1Res : ServiceResponse :=
  { request := c1Req
    response := { status := 200, headers := [], body := "", error := Option.none } }

/-- An ordinary non-preflight request carrying only an `Origin` header: it
fails the full preflight validation (no `Access-Control-Request-Method`),
yet its downstream response is still augmented. -/
def c1GetReq : RequestHead :=
  { method := "GET", headers := [("origin", "http://example.com")] }

def c1GetRes : ServiceResponse :=
  { request := c1GetReq
    response := { status := 200, headers := [], body := "", error := Option.none } }

theorem allow_all_origin_resolution_witness :
    corsValidate c1Inner c1GetReq = Except.error CorsError.methodNotAllowed
    ∧ hmGet (augment_response c1Inner c1GetRes).response.headers
        "access-control-allow-origin" = Option.some "http://example.com"
    ∧ hmGet (handle_preflight c1Inner c1Req).response.headers
        "access-control-allow-origin" = Option.some "http://example.com" := by
  have hg := allow_all_origin_resolution c1Inner c1GetReq c1GetRes "http://example.com"
    rfl rfl rfl
  have hp := allow_all_origin_resolution c1Inner c1Req c1Res "http://example.com"
    rfl rfl rfl
  exact ⟨rfl, hg.2.1.trans rfl, (hp.1 rfl).trans rfl⟩

/-- C4: preflight validation runs origin, then method, then headers,
short-circuiting at the first rejection: the reported rejection comes from
the first failing check in that order, and on any rejection the result is
the host's error response for it, with status 400 and none of the success
headers. -/
theorem preflight_rejection_order (inner : Inner) (req : RequestHead) (e : CorsError)
    (h : corsValidate inner req = Except.error e) :
    (validate_origin inner req = Except.error e
      ∨ (validate_origin inner req = Except.ok ()
          ∧ validate_allowed_method inner req = Except.error e)
      ∨ (validate_origin inner req = Except.ok ()
          ∧ validate_allowed_method inner req = Except.ok ()
          ∧ validate_allowed_headers inner req = Except.error e))
    ∧ handle_preflight inner req = errorResponse req e
    ∧ (handle_preflight inner req).response.headers = []
    ∧ (handle_preflight inner req).response.status = 400
    ∧ (handle_preflight inner req).response.error = Option.some e := by
  have hhp : handle_preflight inner req = errorResponse req e := by
    unfold handle_preflight
    rw [h]
  refine ⟨?_, hhp, by rw [hhp]; rfl, by rw [hhp]; rfl, by rw [hhp]; rfl⟩
  unfold corsValidate at h
  cases h1 : validate_origin inner req with
  | error e1 =>
      rw [h1] at h
      simp only [Except.bind, Except.error.injEq] at h
      exact Or.inl (by rw [h])
  | ok u =>
      cases u
      rw [h1] at h
      simp only [Except.bind] at h
      cases h2 : validate_allowed_method inner req with
      | error e2 =>
          rw [h2] at h
          simp only [Except.bind, Except.error.injEq] at h
          exact Or.inr (Or.inl ⟨rfl, by rw [h]⟩)
      | ok u2 =>
          cases u2
          rw [h2] at h
          simp only [Except.bind] at h
          exact Or.inr (Or.inr ⟨rfl, rfl, h⟩)

def c4Inner : Inner :=
  { allowed_origins := OriginPolicy.allowList ["http://good.example"]
    allowed_methods := ["GET"]
    allowed_headers := AllOrSome.all
    expose_headers := AllOrSome.all
    allowed_methods_baked := Option.some "GET"
    allowed_headers_baked := Option.none
    expose_headers_baked := Option.none
    max_age := Option.none
    preflight := true
    supports_credentials := false
    vary_header := false }

def c4Req : RequestHead :=
  { method := "OPTIONS"
    headers := [("origin", "http://evil.example"), ("access-control-request-method", "GET")] }

theorem preflight_rejection_order_witness :
    (handle_preflight c4Inner c4Req).response.status = 400
    ∧ (handle_preflight c4Inner c4Req).response.error
        = Option.some CorsError.originNotAllowed := by
  have h := preflight_rejection_order c4Inner c4Req CorsError.originNotAllowed rfl
  exact ⟨h.2.2.2.1, h.2.2.2.2⟩

/-- C5: a preflight request passing all three checks yields a `200` response
with no body; allow-methods equals the baked value exactly; the credentials
header is present with value `"true"` exactly when credentials are
supported; max-age is present with the configured seconds exactly when
configured. -/
theorem preflight_success_response (inner : Inner) (req : RequestHead)
    (hok : corsValidate inner req = Except.ok ()) :
    (handle_preflight inner req).response.status = 200
    ∧ (handle_preflight inner req).response.body = ""
    ∧ hmGet (handle_preflight inner req).response.headers
        "access-control-allow-methods" = inner.allowed_methods_baked
    ∧ hmGet (handle_preflight inner req).response.headers
        "access-control-allow-credentials"
        = (if inner.supports_credentials then Option.some "true" else Option.none)
    ∧ hmGet (handle_preflight inner req).response.headers "access-control-max-age"
        = Option.map (fun k => toString k) inner.max_age := by
  refine ⟨handle_preflight_ok_status inner req hok,
    handle_preflight_ok_body inner req hok, ?_, ?_, ?_⟩
  · rw [handle_preflight_ok_headers inner req hok,
        hmGet_applyMaxAge_ne _ _ _ (by decide),
        hmGet_applyCredentials_ne _ _ _ (by decide),
        hmGet_applyAllowHeaders_ne _ _ _ _ (by decide),
        hmGet_applyAllowMethods_self]
    cases hmb : inner.allowed_methods_baked
    · simp [hmGet_applyAllowOrigin_ne, hmGet_nil]
    · simp
  · rw [handle_preflight_ok_headers inner req hok,
        hmGet_applyMaxAge_ne _ _ _ (by decide),
        hmGet_applyCredentials_self]
    cases hc : inner.supports_credentials
    · simp [hmGet_applyAllowHeaders_ne, hmGet_applyAllowMethods_ne,
            hmGet_applyAllowOrigin_ne, hmGet_nil]
    · simp
  · rw [handle_preflight_ok_headers inner req hok, hmGet_applyMaxAge_self]
    cases hma : inner.max_age
    · simp [hmGet_applyCredentials_ne, hmGet_applyAllowHeaders_ne,
            hmGet_applyAllowMethods_ne, hmGet_applyAllowOrigin_ne, hmGet_nil]
    · simp

def c5Inner : Inner :=
  { allowed_origins := OriginPolicy.allowAll
    allowed_methods := ["GET"]
    allowed_headers := AllOrSome.all
    expose_headers := AllOrSome.some []
    allowed_methods_baked := Option.some "GET"
    allowed_headers_baked := Option.none
    expose_headers_baked := Option.none
    max_age := Option.some 3600
    preflight := true
    supports_credentials := true
    vary_header := false }

def c5Req : RequestHead :=
  { method := "OPTIONS"
    headers := [("origin", "http://example.com"), ("access-control-request-method", "GET")] }

theorem preflight_success_response_witness :
    (handle_preflight c5Inner c5Req).response.status = 200
    ∧ hmGet (handle_preflight c5Inner c5Req).response.headers
        "access-control-allow-methods" = Option.some "GET"
    ∧ hmGet (handle_preflight c5Inner c5Req).response.headers
        "access-control-allow-credentials" = Option.some "true"
    ∧ hmGet (handle_preflight c5Inner c5Req).response.headers
        "access-control-max-age" = Option.some "3600" := by
  have h := preflight_success_response c5Inner c5Req rfl
  exact ⟨h.1, h.2.2.1.trans rfl, h.2.2.2.1.trans rfl, h.2.2.2.2.trans rfl⟩

/-- C6: in a successful preflight response, allow-headers equals the baked
headers value when present, and otherwise the raw
`Access-Control-Request-Headers` value copied from the request. -/
theorem preflight_allow_headers (inner : Inner) (req : RequestHead)
    (hok : corsValidate inner req = Except.ok ()) :
    hmGet (handle_preflight inner req).response.headers "access-control-allow-headers"
      = (match inner.allowed_headers_baked with
         | Option.some v => Option.some v
         | Option.none => hmGet req.headers "access-control-request-headers") := by
  rw [handle_preflight_ok_headers inner req hok,
      hmGet_applyMaxAge_ne _ _ _ (by decide),
      hmGet_applyCredentials_ne _ _ _ (by decide),
      hmGet_applyAllowHeaders_self]
  cases hb : inner.allowed_headers_baked
  · cases hr : hmGet req.headers "access-control-request-headers"
    · simp [hr, hmGet_applyAllowMethods_ne, hmGet_applyAllowOrigin_ne, hmGet_nil]
    · simp [hr]
  · simp

def c6Inner : Inner :=
  { allowed_origins := OriginPolicy.allowAll
    allowed_methods := ["GET"]
    allowed_headers := AllOrSome.all
    expose_headers := AllOrSome.some []
    allowed_methods_baked := Option.some "GET"
    allowed_headers_baked := Option.none
    expose_headers_baked := Option.none
    max_age := Option.none
    preflight := true
    supports_credentials := false
    vary_header := false }

def c6Req : RequestHead :=
  { method := "OPTIONS"
    headers := [("origin", "http://example.com"),
                ("access-control-request-method", "GET"),
                ("access-control-request-headers", "X-Token")] }

theorem preflight_allow_headers_witness :
    hmGet (handle_preflight c6Inner c6Req).response.headers
        "access-control-allow-headers" = Option.some "X-Token" :=
  (preflight_allow_headers c6Inner c6Req rfl).trans rfl

/-- C10: a successful preflight with no baked allow-headers value and no
`Access-Control-Request-Headers` header on the request carries no
`Access-Control-Allow-Headers` header at all. -/
theorem preflight_no_allow_headers (inner : Inner) (req : RequestHead)
    (hok : corsValidate inner req = Except.ok ())
    (hb : inner.allowed_headers_baked = Option.none)
    (hr : hmGet req.headers "access-control-request-headers" = Option.none) :
    hmGet (handle_preflight inner req).response.headers "access-control-allow-headers"
      = Option.none := by
  rw [handle_preflight_ok_headers inner req hok,
      hmGet_applyMaxAge_ne _ _ _ (by decide),
      hmGet_applyCredentials_ne _ _ _ (by decide),
      hmGet_applyAllowHeaders_self, hb, hr]
  simp [hmGet_applyAllowMethods_ne, hmGet_applyAllowOrigin_ne, hmGet_nil]

def c10Inner : Inner :=
  { allowed_origins := OriginPolicy.allowAll
    allowed_methods := ["GET"]
    allowed_headers := AllOrSome.all
    expose_headers := AllOrSome.some []
    allowed_methods_baked := Option.some "GET"
    allowed_headers_baked := Option.none
    expose_headers_baked := Option.none
    max_age := Option.none
    preflight := true
    supports_credentials := false
    vary_header := false }

def c10Req : RequestHead :=
  { method := "OPTIONS"
    headers := [("origin", "http://example.com"), ("access-control-request-method", "GET")] }

theorem preflight_no_allow_headers_witness :
    hmGet (handle_preflight c10Inner c10Req).response.headers
        "access-control-allow-headers" = Option.none :=
  preflight_no_allow_headers c10Inner c10Req rfl rfl rfl

end Cors
